import Mathlib

/-!
Verification development for the rule-based agent orchestration engine
(agents/base.py, agents/messaging.py, state/state_manager.py,
tools/BaseTool.py, tools/registry.py).

The Python code is shallowly embedded: Python dict values are modelled by
the inductive type PyVal, JSON documents by Json, and the functions
json.dumps / json.loads by dumps / loads below.  Stateful methods become
explicit state-passing functions; datetime.now() readings are modelled as
Nat clock values supplied by the caller.
-/

/-- Keys of a Python dict, restricted to the types that json.dumps accepts
as object keys (it coerces each of them to a string). -/
inductive PyKey where
  | kStr (s : String)
  | kInt (n : Int)
  | kBool (b : Bool)
  | kNone
deriving DecidableEq, Repr

/-- A Python value as it can appear inside the engine state maps:
None, bool, int, str, list, tuple, or dict. -/
inductive PyVal where
  | vNone
  | vBool (b : Bool)
  | vInt (n : Int)
  | vStr (s : String)
  | vList (xs : List PyVal)
  | vTuple (xs : List PyVal)
  | vDict (es : List (PyKey × PyVal))
deriving Repr

/-- A JSON document, the image of json.dumps. -/
inductive Json where
  | jNull
  | jBool (b : Bool)
  | jInt (n : Int)
  | jStr (s : String)
  | jArr (xs : List Json)
  | jObj (es : List (String × Json))
deriving Repr

/-- How json.dumps renders a non-string dict key as an object key. -/
def PyKey.dumpKey : PyKey → String
  | .kStr s => s
  | .kInt n => toString n
  | .kBool true => "true"
  | .kBool false => "false"
  | .kNone => "null"

mutual

/-- json.dumps on a Python value (every PyVal is serializable; tuples are
rendered as arrays, non-string keys are coerced to strings). -/
def dumps : PyVal → Json
  | .vNone => .jNull
  | .vBool b => .jBool b
  | .vInt n => .jInt n
  | .vStr s => .jStr s
  | .vList xs => .jArr (dumpsList xs)
  | .vTuple xs => .jArr (dumpsList xs)
  | .vDict es => .jObj (dumpsEntries es)

def dumpsList : List PyVal → List Json
  | [] => []
  | v :: vs => dumps v :: dumpsList vs

def dumpsEntries : List (PyKey × PyVal) → List (String × Json)
  | [] => []
  | (k, v) :: es => (k.dumpKey, dumps v) :: dumpsEntries es

end

mutual

/-- json.loads of a JSON document back into a Python value: arrays become
lists (never tuples) and object keys become string keys. -/
def loads : Json → PyVal
  | .jNull => .vNone
  | .jBool b => .vBool b
  | .jInt n => .vInt n
  | .jStr s => .vStr s
  | .jArr xs => .vList (loadsList xs)
  | .jObj es => .vDict (loadsEntries es)

def loadsList : List Json → List PyVal
  | [] => []
  | j :: js => loads j :: loadsList js

def loadsEntries : List (String × Json) → List (PyKey × PyVal)
  | [] => []
  | (k, j) :: es => (.kStr k, loads j) :: loadsEntries es

end

/-- A Python value is JSON-native when loads (dumps v) reproduces it
exactly: no tuples anywhere, and every dict key is a string. -/
inductive JsonNative : PyVal → Prop where
  | none_ : JsonNative .vNone
  | bool_ (b : Bool) : JsonNative (.vBool b)
  | int_ (n : Int) : JsonNative (.vInt n)
  | str_ (s : String) : JsonNative (.vStr s)
  | list_ (xs : List PyVal) (h : ∀ v ∈ xs, JsonNative v) : JsonNative (.vList xs)
  | dict_ (es : List (PyKey × PyVal))
      (hk : ∀ e ∈ es, ∃ s, e.1 = PyKey.kStr s)
      (hv : ∀ e ∈ es, JsonNative e.2) : JsonNative (.vDict es)

/-! String-keyed Python dicts, as the engine builds them (params, results,
tools_state, shared_data, step_results are all created with string keys by
agents/base.py).  Modelled as insertion-ordered association lists with the
update semantics of a Python dict. -/

/-- A string-keyed Python dict. -/
abbrev Dict := List (String × PyVal)

/-- Python d.get(k): the value at the first matching key, if any. -/
def Dict.get? : Dict → String → Option PyVal
  | [], _ => none
  | e :: es, k => if e.1 = k then some e.2 else Dict.get? es k

/-- Python d.get(k, default). -/
def Dict.getD (d : Dict) (k : String) (v : PyVal) : PyVal :=
  (Dict.get? d k).getD v

/-- Python d[k] = v: replace the value at an existing key in place,
otherwise append the new binding. -/
def Dict.set (d : Dict) (k : String) (v : PyVal) : Dict :=
  match d with
  | [] => [(k, v)]
  | e :: es => if e.1 = k then (k, v) :: es else e :: Dict.set es k v

/-- Embed a string-keyed dict as a PyVal dict value. -/
def Dict.toVal (d : Dict) : PyVal :=
  .vDict (d.map (fun e => (PyKey.kStr e.1, e.2)))

/-- Python truthiness of a value (empty containers, zero, empty strings,
False and None are falsy). -/
def PyVal.truthy : PyVal → Bool
  | .vNone => false
  | .vBool b => b
  | .vInt n => n != 0
  | .vStr s => s != ""
  | .vList xs => !xs.isEmpty
  | .vTuple xs => !xs.isEmpty
  | .vDict es => !es.isEmpty

/-! State store (state/state_manager.py).  AgentState mirrors the dataclass;
update_state serializes the three maps with json.dumps and the timestamp with
isoformat before the INSERT OR REPLACE; get_state parses them back.
datetime timestamps are modelled as Nat clock readings; the pair
isoformat / fromisoformat is an exact inverse pair on datetime values and is
therefore modelled as storing the reading itself. -/

/-- The AgentState dataclass of state/state_manager.py. -/
structure AgentState where
  agent_id : String
  user_id : String
  current_step : Option String
  tools_state : Dict
  shared_data : Dict
  last_updated : Nat
  status : String
  step_results : Dict
deriving Repr

/-- One row of the agent_states table: the maps are stored as serialized
JSON text columns, exactly as update_state writes them. -/
structure Row where
  agent_id : String
  user_id : String
  current_step : Option String
  tools_state : Json
  shared_data : Json
  last_updated : Nat
  status : String
  step_results : Json
deriving Repr

/-- The agent_states table, keyed by the (agent_id, user_id) primary key. -/
abbrev Store := List ((String × String) × Row)

/-- Serialize a dict column the way update_state does: json.dumps of a
string-keyed dict. -/
def dumpDict (d : Dict) : Json :=
  dumps (Dict.toVal d)

/-- Parse a dict column the way get_state does (json.loads); a non-object
document would make the AgentState constructor call fail, but every stored
column is an object. -/
def loadDict (j : Json) : Dict :=
  match loads j with
  | .vDict es => es.filterMap (fun e =>
      match e.1 with
      | .kStr s => some (s, e.2)
      | _ => none)
  | _ => []

/-- The serialized row update_state writes for a state. -/
def rowOf (st : AgentState) : Row :=
  { agent_id := st.agent_id
    user_id := st.user_id
    current_step := st.current_step
    tools_state := dumpDict st.tools_state
    shared_data := dumpDict st.shared_data
    last_updated := st.last_updated
    status := st.status
    step_results := dumpDict st.step_results }

/-- StateManager.update_state: INSERT OR REPLACE of the serialized row for
the state's (agent_id, user_id) key. -/
def update_state (store : Store) (st : AgentState) : Store :=
  match store with
  | [] => [((st.agent_id, st.user_id), rowOf st)]
  | e :: es =>
    if e.1 = (st.agent_id, st.user_id) then ((st.agent_id, st.user_id), rowOf st) :: es
    else e :: update_state es st

/-- StateManager.get_state: fetch the row for the key and deserialize it
back into an AgentState, or return none when no row exists. -/
def get_state (store : Store) (agent_id user_id : String) : Option AgentState :=
  ((store.find? (fun e => e.1 == (agent_id, user_id))).map Prod.snd).map
    (fun row =>
      { agent_id := row.agent_id
        user_id := row.user_id
        current_step := row.current_step
        tools_state := loadDict row.tools_state
        shared_data := loadDict row.shared_data
        last_updated := row.last_updated
        status := row.status
        step_results := loadDict row.step_results })

/-- Agent._update_state_status (agents/base.py lines 67-75): set the status,
overwrite current_step and shared_data.last_error only when the arguments
are truthy, stamp last_updated with the clock reading, and persist.
Returns the updated in-memory state; the caller pairs it with
update_state. -/
def updateStatus (st : AgentState) (status : String) (current_step : Option String)
    (error : Option String) (now : Nat) : AgentState :=
  let st := { st with status := status }
  let st :=
    match current_step with
    | some s => if s ≠ "" then { st with current_step := some s } else st
    | none => st
  let st :=
    match error with
    | some m =>
      if m ≠ "" then { st with shared_data := Dict.set st.shared_data "last_error" (.vStr m) }
      else st
    | none => st
  { st with last_updated := now }

/-! Tool contract (tools/BaseTool.py).  The abstract execute method of a
concrete tool is modelled by a behavior oracle describing, for given
parameters, which of the four outcomes the awaited call has: it returns a
mapping, returns a non-mapping, raises, or exceeds the 30-second
asyncio.wait_for budget. -/

/-- Outcome of awaiting the abstract execute inside asyncio.wait_for. -/
inductive ExecBehavior where
  | ok (result : Dict)
  | nonDict
  | raises (msg : String)
  | timesOut

/-- A tool instance: its identity, counters and behavior. -/
structure BaseTool where
  name : String
  description : String
  last_execution : Option Nat
  execution_count : Nat
  error_count : Nat
  behavior : Dict → ExecBehavior

/-- BaseTool._validate_params: both required keys must be present. -/
def validate_params (params : Dict) : Bool :=
  (Dict.get? params "step").isSome && (Dict.get? params "user_id").isSome

/-- The structured error result safe_execute returns on any failure.  The
last_error field holds datetime.now().isoformat(), modelled as the textual
clock reading; the stack_trace text is opaque to every caller and is
modelled as the error message itself. -/
def errorDict (msg : String) (now : Nat) (errCount : Nat) : Dict :=
  [("status", .vStr "error"),
   ("error", .vStr msg),
   ("stack_trace", .vStr msg),
   ("state", .vDict [(.kStr "last_error", .vStr (toString now)),
                     (.kStr "error_count", .vInt errCount)])]

/-- The execution_metadata entry added to a successful result. -/
def metadataVal (now : Nat) (execCount errCount : Nat) : PyVal :=
  .vDict [(.kStr "timestamp", .vStr (toString now)),
          (.kStr "execution_count", .vInt execCount),
          (.kStr "error_count", .vInt errCount)]

/-- BaseTool.safe_execute (tools/BaseTool.py lines 31-78).  Validation
failure raises ToolExecutionError before the execution counter is touched;
the enclosing except converts every raised exception (validation failure,
timeout, non-mapping result, or an exception out of execute) into the
structured error dict after incrementing the error counter.  Every path
returns; nothing propagates to the caller. -/
def safe_execute (t : BaseTool) (params : Dict) (now : Nat) : BaseTool × Dict :=
  if validate_params params = false then
    let t1 := { t with error_count := t.error_count + 1 }
    (t1, errorDict "Missing required parameters" now t1.error_count)
  else
    let t1 := { t with last_execution := some now,
                       execution_count := t.execution_count + 1 }
    match t1.behavior params with
    | .ok r =>
      (t1, Dict.set r "execution_metadata" (metadataVal now t1.execution_count t1.error_count))
    | .nonDict =>
      let t2 := { t1 with error_count := t1.error_count + 1 }
      (t2, errorDict "Tool must return a dictionary" now t2.error_count)
    | .raises msg =>
      let t2 := { t1 with error_count := t1.error_count + 1 }
      (t2, errorDict msg now t2.error_count)
    | .timesOut =>
      let t2 := { t1 with error_count := t1.error_count + 1 }
      (t2, errorDict "Tool execution timed out" now t2.error_count)

/-- Whether a behavior outcome takes the error path of safe_execute. -/
def ExecBehavior.isError : ExecBehavior → Bool
  | .ok _ => false
  | .nonDict => true
  | .raises _ => true
  | .timesOut => true

/-! Tool registry (tools/registry.py). -/

/-- Registry-side metadata for one registered tool. -/
structure ToolMeta where
  registered_at : Nat
  execution_count : Nat
  error_count : Nat
deriving DecidableEq, Repr

/-- Python assoc assignment l[k] = v on an association list: replace the
binding in place if the key exists, else append. -/
def setAssoc {α : Type} : List (String × α) → String → α → List (String × α)
  | [], k, v => [(k, v)]
  | e :: es, k, v => if e.1 = k then (k, v) :: es else e :: setAssoc es k v

/-- The ToolRegistry: the name-to-instance map and the metadata map. -/
structure ToolRegistry where
  tools : List (String × BaseTool)
  metadata : List (String × ToolMeta)

/-- ToolRegistry.get_tool: dict get, returning none for an unknown name. -/
def ToolRegistry.get_tool (reg : ToolRegistry) (name : String) : Option BaseTool :=
  (reg.tools.find? (fun e => e.1 == name)).map Prod.snd

/-- The ToolAlreadyRegisteredError raised by register_tool. -/
inductive RegError where
  | toolAlreadyRegistered (name : String)
deriving DecidableEq, Repr

/-- ToolRegistry.register_tool (tools/registry.py lines 62-76): raise
ToolAlreadyRegisteredError before any mutation when the name is taken,
otherwise add the instance and fresh metadata.  The result pairs the raised
error (if any) with the registry the caller observes afterwards. -/
def ToolRegistry.register_tool (reg : ToolRegistry) (tool : BaseTool) (now : Nat) :
    Option RegError × ToolRegistry :=
  if reg.tools.any (fun e => e.1 == tool.name) then
    (some (.toolAlreadyRegistered tool.name), reg)
  else
    (none,
     { tools := setAssoc reg.tools tool.name tool,
       metadata := setAssoc reg.metadata tool.name
         { registered_at := now, execution_count := 0, error_count := 0 } })

/-- Replacement of a registered tool instance by its post-invocation value
(in Python the registry holds the mutated object itself). -/
def ToolRegistry.setTool (reg : ToolRegistry) (name : String) (t : BaseTool) : ToolRegistry :=
  { reg with tools := setAssoc reg.tools name t }

/-! Message channel (agents/messaging.py).  MessageQueue.start acquires
self._lock with an async with that spans the whole body, including the
direct await of _process_messages; the dispatch loop therefore runs while
the lock is held, and it only returns if its queue.get() wait is cancelled.
stop() and any further start() must acquire the same lock first. -/

/-- An AgentMessage (agents/messaging.py lines 13-24). -/
structure AgentMessage where
  sender : String
  receiver : String
  content : Dict
  message_type : String
  timestamp : Nat
  message_id : String

/-- Observable state of a MessageQueue. -/
structure MessageQueue where
  msgs : List AgentMessage
  running : Bool
  lockHeld : Bool

/-- What a call to MessageQueue.start does. -/
inductive StartOutcome where
  | blockedOnLock
  | noop
  | dispatchLoop
deriving DecidableEq, Repr

/-- MessageQueue.start (agents/messaging.py lines 34-42).  When the lock is
held (by the start call that entered the dispatch loop) the caller suspends
on acquiring it and does not return.  With the lock free: if already
running, return immediately without touching anything; otherwise mark
running and await _process_messages directly, keeping the lock, so this
call does not return to its caller either while the loop runs. -/
def MessageQueue.start (q : MessageQueue) : StartOutcome × MessageQueue :=
  if q.lockHeld then (.blockedOnLock, q)
  else if q.running then (.noop, q)
  else (.dispatchLoop, { q with running := true, lockHeld := true })

/-! Agent execution engine (agents/base.py).  One Agent instance driving
its workflow.  The constructor arguments that matter to execution form
AgentCfg; the engine threads an explicit EngState holding the in-memory
object attributes, the shared store, the shared registry, the channel
state and a clock.  The stop flag written asynchronously by
Agent._handle_message on a "stop" message (base.py lines 61-65) is
modelled by a delivery oracle stopSig: stopSig i is true when a stop
message reached the handler before the i-th step-boundary check. -/

/-- The spec fields an Agent is constructed from; continue_on_error is
exception_handling.get of the key with default False. -/
structure AgentCfg where
  name : String
  description : String
  tools : List String
  initial_step : String
  steps : List String
  final_step : String
  continue_on_error : Bool
  user_id : String

/-- The effective step sequence built by execute (base.py line 91). -/
def AgentCfg.allSteps (cfg : AgentCfg) : List String :=
  cfg.initial_step :: (cfg.steps ++ [cfg.final_step])

/-- In-memory and shared state threaded through one run. -/
structure EngState where
  status : String
  currentStep : Option String
  ast : AgentState
  store : Store
  registry : ToolRegistry
  queueRunning : Bool
  queueMsgs : List AgentMessage
  clock : Nat
  writes : List AgentState

/-- Persist the in-memory AgentState through StateManager.update_state and
record the written snapshot in the trace. -/
def persistState (e : EngState) : EngState :=
  { e with store := update_state e.store e.ast, writes := e.writes ++ [e.ast] }

/-- Agent._update_state_status followed by its update_state call; the
clock value is the datetime.now() reading assigned to last_updated. -/
def engUpdateStatus (e : EngState) (status : String) (cs err : Option String) : EngState :=
  persistState { e with ast := updateStatus e.ast status cs err e.clock,
                        clock := e.clock + 1 }

/-- Agent._send_progress_message (base.py lines 172-186): enqueue a
progress_update message when the channel is running, otherwise skip. -/
def sendProgress (cfg : AgentCfg) (e : EngState) (step : String) (results : Dict) : EngState :=
  if e.queueRunning then
    { e with
      clock := e.clock + 1,
      queueMsgs := e.queueMsgs ++
        [{ sender := cfg.name,
           receiver := "managing_agent",
           content := [("step", .vStr step),
                       ("status", .vStr "completed"),
                       ("results", Dict.toVal results)],
           message_type := "progress_update",
           timestamp := e.clock,
           message_id := toString e.clock }] }
  else e

/-- The per-step tool loop of Agent._execute_step (base.py lines 126-157).
A name the registry does not know is skipped with a warning and the loop
continues.  Each found tool runs through safe_execute; its result is
recorded under the tool name and, when the result carries a truthy state
entry, tools_state is overwritten.  The except branch at lines 152-157
(the continue_on_error policy) is unreachable from a safe_execute
invocation: safe_execute returns a dict on every path and raises nothing,
so no exception arises inside this loop and the policy value is never
consulted. -/
def toolLoop (cfg : AgentCfg) (step : String) :
    List String → EngState → Dict → EngState × Dict
  | [], e, acc => (e, acc)
  | tname :: rest, e, acc =>
    match e.registry.get_tool tname with
    | none => toolLoop cfg step rest e acc
    | some tool =>
      let params : Dict :=
        [("step", .vStr step),
         ("user_id", .vStr cfg.user_id),
         ("query", .vStr ("Execute " ++ step ++ " step")),
         ("current_state", Dict.getD e.ast.tools_state tname (.vDict [])),
         ("shared_data", Dict.toVal e.ast.shared_data),
         ("input_data", Dict.toVal e.ast.step_results)]
      let se := safe_execute tool params e.clock
      let e := { e with clock := e.clock + 1, registry := e.registry.setTool tname se.1 }
      let acc := Dict.set acc tname (Dict.toVal se.2)
      let e :=
        match Dict.get? se.2 "state" with
        | some v =>
          if v.truthy then
            { e with ast := { e.ast with tools_state := Dict.set e.ast.tools_state tname v } }
          else e
        | none => e
      toolLoop cfg step rest e acc

/-- Agent._execute_step (base.py lines 119-170): record the current step,
persist the running status with the step name, run every configured tool,
record the step's results exactly once under the step name, persist, and
send the best-effort progress message. -/
def execStep (cfg : AgentCfg) (step : String) (e : EngState) : EngState :=
  let e := { e with currentStep := some step }
  let e := engUpdateStatus e "running" (some step) none
  let tl := toolLoop cfg step cfg.tools e []
  let e := { tl.1 with ast :=
    { tl.1.ast with step_results := Dict.set tl.1.ast.step_results step (Dict.toVal tl.2) } }
  let e := persistState e
  sendProgress cfg e step tl.2

/-- The step loop of Agent.execute (base.py lines 92-102).  Before each
step the locally observed status is checked: if a stop message has been
delivered, the stopped status is persisted and the loop returns early.
The status check for "failed" after each step (line 101) can never fire,
since no statement inside _execute_step assigns that status.  The Bool in
the result records whether the run was stopped. -/
def stepLoop (cfg : AgentCfg) (stopSig : Nat → Bool) :
    List String → Nat → EngState → EngState × Bool
  | [], _, e => (e, false)
  | s :: rest, i, e =>
    if stopSig i then
      let e := { e with status := "stopped" }
      (engUpdateStatus e "stopped" none none, true)
    else
      stepLoop cfg stopSig rest (i + 1) (execStep cfg s e)

/-- Result of one call to Agent.execute.  blocked is true when the call
never returns to its caller: at base.py lines 87-88 a not-yet-running
channel makes execute await MessageQueue.start, which awaits its dispatch
loop directly (messaging.py line 42), and that loop never returns while
the queue keeps waiting for messages; eng then holds everything done up to
that point. -/
structure ExecResult where
  blocked : Bool
  eng : EngState

/-- The row Agent.initialize_state creates (base.py lines 47-59). -/
def freshState (cfg : AgentCfg) (t : Nat) : AgentState :=
  { agent_id := cfg.name,
    user_id := cfg.user_id,
    current_step := none,
    tools_state := [],
    shared_data := [],
    last_updated := t,
    status := "initialized",
    step_results := [] }

/-- The opening straight-line part of Agent.execute (base.py lines 79-84):
initialize_state creates and persists the fresh row, then the in-memory
status becomes running and _update_state_status persists it.  The writes
trace is reset so that it records exactly the update_state calls of this
run. -/
def executePrelude (cfg : AgentCfg) (e0 : EngState) : EngState :=
  let e := { e0 with writes := ([] : List AgentState) }
  let e := persistState { e with ast := freshState cfg e.clock, clock := e.clock + 1 }
  let e := { e with status := "running" }
  engUpdateStatus e "running" none none

/-- Agent.execute (base.py lines 77-117): re-seed the persisted row via
initialize_state, mark and persist running, start the channel if it is not
running (blocking the run, see ExecResult.blocked), then run the step loop
and, when neither stop nor failure intervened, persist completed.  The
except branch (lines 109-114) is unreachable here because every operation
in the loop returns normally; the finally branch only unsubscribes the
handler, which no claim observes. -/
def executeAgent (cfg : AgentCfg) (stopSig : Nat → Bool) (e0 : EngState) : ExecResult :=
  let e := executePrelude cfg e0
  if !e.queueRunning then
    { blocked := true, eng := e }
  else
    let sl := stepLoop cfg stopSig cfg.allSteps 0 e
    if sl.2 then
      { blocked := false, eng := sl.1 }
    else
      let e2 := { sl.1 with status := "completed" }
      { blocked := false, eng := engUpdateStatus e2 "completed" none none }

/-! Auxiliary observation functions and the concrete sample inputs used by
the counterexample and evaluation theorems below. -/

/-- The last_updated column of the stored row for a key, read without
deserializing the map columns. -/
def rowLU (store : Store) (agent_id user_id : String) : Option Nat :=
  (store.find? (fun e => e.1 == (agent_id, user_id))).map (fun e => e.2.last_updated)

/-- Dictionary access on a PyVal dict value under a string key. -/
def pyDictGet (v : PyVal) (k : String) : Option PyVal :=
  match v with
  | .vDict es => (es.find? (fun e => e.1 == PyKey.kStr k)).map Prod.snd
  | _ => none

/-- Observation used to separate two states: whether the value stored in
tools_state under tool name t is a dict whose first key is an int key. -/
def firstToolKeyIsInt (o : Option AgentState) : Bool :=
  match o with
  | some st =>
    match Dict.get? st.tools_state "t" with
    | some (.vDict ((PyKey.kInt _, _) :: _)) => true
    | _ => false
  | none => false

/-- A tool whose execute always raises Exception("boom"). -/
def toolBoom : BaseTool :=
  { name := "t", description := "always raises", last_execution := none,
    execution_count := 0, error_count := 0, behavior := fun _ => .raises "boom" }

/-- A tool whose execute always returns an empty dict. -/
def toolOk : BaseTool :=
  { name := "t", description := "always succeeds", last_execution := none,
    execution_count := 0, error_count := 0, behavior := fun _ => .ok [] }

/-- A registry holding exactly the tool named t. -/
def regOf (t : BaseTool) : ToolRegistry :=
  { tools := [("t", t)],
    metadata := [("t", { registered_at := 0, execution_count := 0, error_count := 0 })] }

/-- Agent spec with three effective steps, tool list [t], and
continue_on_error set to false. -/
def cfgBoom : AgentCfg :=
  { name := "agent1", description := "", tools := ["t"],
    initial_step := "s0", steps := ["s1"], final_step := "s2",
    continue_on_error := false, user_id := "u" }

/-- Agent spec with no intermediate steps and tool list [t]. -/
def cfgTwoStep : AgentCfg :=
  { name := "agent2", description := "", tools := ["t"],
    initial_step := "init", steps := [], final_step := "final",
    continue_on_error := true, user_id := "u" }

/-- Engine state at the start of a run: fresh in-memory object, empty
store, the given registry, and the given channel-running flag. -/
def engStart (cfg : AgentCfg) (reg : ToolRegistry) (qr : Bool) : EngState :=
  { status := "initialized", currentStep := none, ast := freshState cfg 0,
    store := [], registry := reg, queueRunning := qr, queueMsgs := [],
    clock := 0, writes := [] }

/-- A stop-delivery oracle: the handler has observed the stop message
before every boundary check from index k on. -/
def stopFrom (k : Nat) : Nat → Bool :=
  fun j => k ≤ j

/-- Sample state written twice in the C6 counterexample, mirroring the
direct update_state call at base.py line 161 which does not refresh
last_updated. -/
def stSame : AgentState :=
  { agent_id := "a", user_id := "u", current_step := none, tools_state := [],
    shared_data := [], last_updated := 5, status := "running", step_results := [] }

/-- Sample state whose tools_state map is JSON-serializable but carries an
int dict key, which json.dumps coerces to the string key "1". -/
def stIntKey : AgentState :=
  { agent_id := "a", user_id := "u", current_step := none,
    tools_state := [("t", .vDict [(.kInt 1, .vStr "x")])],
    shared_data := [], last_updated := 0, status := "initialized", step_results := [] }

/-- Sample state whose three maps contain only JSON-native values. -/
def stNative : AgentState :=
  { agent_id := "a", user_id := "u", current_step := some "s1",
    tools_state := [("t", .vStr "v")],
    shared_data := [("k", .vInt 3)],
    last_updated := 7, status := "running",
    step_results := [("s1", .vDict [(.kStr "t", .vBool true)])] }

/-- A parameter dict carrying both required keys. -/
def paramsOk : Dict :=
  [("step", .vStr "s"), ("user_id", .vStr "u")]

/-- A channel that is running while its start call still holds the lock
inside the dispatch loop. -/
def qInLoop : MessageQueue :=
  { msgs := [], running := true, lockHeld := true }

/-- A channel that is marked running with the lock free (the dispatch loop
exited through cancellation while _running stayed true). -/
def qRunningFree : MessageQueue :=
  { msgs := [], running := true, lockHeld := false }

/-! Helper lemmas about serialization, dict operations and the store. -/

theorem loadsList_dumpsList (ys : List PyVal) (h : ∀ v ∈ ys, loads (dumps v) = v) :
    loadsList (dumpsList ys) = ys := by
  induction ys with
  | nil => rfl
  | cons y ys ihy =>
    have h1 : loads (dumps y) = y := h y (by simp)
    have h2 : loadsList (dumpsList ys) = ys := ihy (fun v hv => h v (by simp [hv]))
    simp [dumpsList, loadsList, h1, h2]

theorem loadsEntries_dumpsEntries (fs : List (PyKey × PyVal))
    (hk : ∀ e ∈ fs, ∃ s, e.1 = PyKey.kStr s)
    (hv : ∀ e ∈ fs, loads (dumps e.2) = e.2) :
    loadsEntries (dumpsEntries fs) = fs := by
  induction fs with
  | nil => rfl
  | cons f fs ihf =>
    obtain ⟨s, hs⟩ := hk f (by simp)
    have h1 : loads (dumps f.2) = f.2 := hv f (by simp)
    have h2 : loadsEntries (dumpsEntries fs) = fs :=
      ihf (fun e he => hk e (by simp [he])) (fun e he => hv e (by simp [he]))
    obtain ⟨k, v⟩ := f
    simp only at hs
    subst hs
    simp [dumpsEntries, loadsEntries, PyKey.dumpKey, h1, h2]

theorem loads_dumps (v : PyVal) (h : JsonNative v) : loads (dumps v) = v := by
  induction h with
  | none_ => rfl
  | bool_ b => rfl
  | int_ n => rfl
  | str_ s => rfl
  | list_ xs h ih => simp [dumps, loads, loadsList_dumpsList xs ih]
  | dict_ es hk hv ih => simp [dumps, loads, loadsEntries_dumpsEntries es hk ih]

theorem loadDict_dumpDict (d : Dict) (h : ∀ e ∈ d, JsonNative e.2) :
    loadDict (dumpDict d) = d := by
  have hk : ∀ e ∈ d.map (fun e => (PyKey.kStr e.1, e.2)), ∃ s, e.1 = PyKey.kStr s := by
    intro e he
    simp only [List.mem_map] at he
    obtain ⟨f, _, hf⟩ := he
    exact ⟨f.1, by simp [← hf]⟩
  have hv : ∀ e ∈ d.map (fun e => (PyKey.kStr e.1, e.2)), loads (dumps e.2) = e.2 := by
    intro e he
    simp only [List.mem_map] at he
    obtain ⟨f, hf1, hf⟩ := he
    have := loads_dumps f.2 (h f hf1)
    simp [← hf, this]
  simp only [loadDict, dumpDict, Dict.toVal, dumps, loads,
    loadsEntries_dumpsEntries _ hk hv]
  induction d with
  | nil => rfl
  | cons e es ihe =>
    have ih := ihe (fun f hf => h f (by simp [hf]))
      (fun f hf => hk f (by simp at hf ⊢; tauto))
      (fun f hf => hv f (by simp at hf ⊢; tauto))
    simpa [List.filterMap] using ih

theorem Dict.get?_set_self (d : Dict) (k : String) (v : PyVal) :
    Dict.get? (Dict.set d k v) k = some v := by
  induction d with
  | nil => simp [Dict.set, Dict.get?]
  | cons e es ih =>
    by_cases h : e.1 = k
    · simp [Dict.set, h, Dict.get?]
    · simp [Dict.set, h, Dict.get?, ih]

theorem Dict.get?_set_ne (d : Dict) (k k' : String) (v : PyVal) (h : k' ≠ k) :
    Dict.get? (Dict.set d k v) k' = Dict.get? d k' := by
  induction d with
  | nil => simp [Dict.set, Dict.get?, Ne.symm h]
  | cons e es ih =>
    by_cases he : e.1 = k
    · subst he
      simp [Dict.set, Dict.get?, Ne.symm h]
    · by_cases he' : e.1 = k'
      · simp [Dict.set, he, Dict.get?, he', h]
      · simp [Dict.set, he, Dict.get?, he', ih]

theorem Dict.isSome_get?_set (d : Dict) (k k' : String) (v : PyVal) :
    ((Dict.get? (Dict.set d k v) k').isSome = true) ↔
      (k' = k ∨ (Dict.get? d k').isSome = true) := by
  by_cases h : k' = k
  · subst h
    simp [Dict.get?_set_self]
  · simp [Dict.get?_set_ne d k k' v h, h]

theorem find?_update_state (store : Store) (st : AgentState) :
    (update_state store st).find? (fun e => e.1 == (st.agent_id, st.user_id)) =
      some ((st.agent_id, st.user_id), rowOf st) := by
  induction store with
  | nil => simp [update_state, List.find?]
  | cons e es ih =>
    by_cases h : e.1 = (st.agent_id, st.user_id)
    · simp [update_state, h, List.find?]
    · simp only [update_state, h, if_false]
      rw [List.find?_cons_of_neg _ (by simpa using h)]
      exact ih

theorem get_state_update_state (store : Store) (st : AgentState) :
    get_state (update_state store st) st.agent_id st.user_id =
      some { agent_id := st.agent_id
             user_id := st.user_id
             current_step := st.current_step
             tools_state := loadDict (dumpDict st.tools_state)
             shared_data := loadDict (dumpDict st.shared_data)
             last_updated := st.last_updated
             status := st.status
             step_results := loadDict (dumpDict st.step_results) } := by
  simp [get_state, find?_update_state store st, rowOf]

theorem rowLU_update_state (store : Store) (st : AgentState) :
    rowLU (update_state store st) st.agent_id st.user_id = some st.last_updated := by
  simp [rowLU, find?_update_state store st, rowOf]

/-! Helper lemmas about updateStatus and the engine primitives. -/

theorem updateStatus_fields (st : AgentState) (s : String) (c er : Option String) (t : Nat) :
    (updateStatus st s c er t).agent_id = st.agent_id ∧
    (updateStatus st s c er t).user_id = st.user_id ∧
    (updateStatus st s c er t).status = s ∧
    (updateStatus st s c er t).last_updated = t ∧
    (updateStatus st s c er t).step_results = st.step_results ∧
    (updateStatus st s c er t).tools_state = st.tools_state := by
  cases c <;> cases er <;> simp only [updateStatus] <;> (try split_ifs) <;> simp

theorem updateStatus_shared_data_none (st : AgentState) (s : String) (c : Option String)
    (t : Nat) : (updateStatus st s c none t).shared_data = st.shared_data := by
  cases c
  · simp [updateStatus]
  · simp only [updateStatus]
    split_ifs <;> simp

theorem persistState_proj (e : EngState) :
    (persistState e).ast = e.ast ∧
    (persistState e).status = e.status ∧
    (persistState e).currentStep = e.currentStep ∧
    (persistState e).queueRunning = e.queueRunning ∧
    (persistState e).registry = e.registry ∧
    (persistState e).clock = e.clock ∧
    (persistState e).writes = e.writes ++ [e.ast] ∧
    (persistState e).store = update_state e.store e.ast := by
  simp [persistState]

theorem engUpdateStatus_proj (e : EngState) (s : String) (c er : Option String) :
    (engUpdateStatus e s c er).ast = updateStatus e.ast s c er e.clock ∧
    (engUpdateStatus e s c er).status = e.status ∧
    (engUpdateStatus e s c er).queueRunning = e.queueRunning ∧
    (engUpdateStatus e s c er).registry = e.registry ∧
    (engUpdateStatus e s c er).clock = e.clock + 1 ∧
    (engUpdateStatus e s c er).writes = e.writes ++ [updateStatus e.ast s c er e.clock] ∧
    (engUpdateStatus e s c er).store = update_state e.store (updateStatus e.ast s c er e.clock) := by
  simp [engUpdateStatus, persistState]

theorem sendProgress_proj (cfg : AgentCfg) (e : EngState) (step : String) (res : Dict) :
    (sendProgress cfg e step res).ast = e.ast ∧
    (sendProgress cfg e step res).status = e.status ∧
    (sendProgress cfg e step res).queueRunning = e.queueRunning ∧
    (sendProgress cfg e step res).writes = e.writes ∧
    (sendProgress cfg e step res).store = e.store := by
  unfold sendProgress
  split_ifs <;> simp

theorem toolLoop_proj (cfg : AgentCfg) (step : String) :
    ∀ (names : List String) (e : EngState) (acc : Dict),
      (toolLoop cfg step names e acc).1.ast.step_results = e.ast.step_results ∧
      (toolLoop cfg step names e acc).1.ast.shared_data = e.ast.shared_data ∧
      (toolLoop cfg step names e acc).1.ast.agent_id = e.ast.agent_id ∧
      (toolLoop cfg step names e acc).1.ast.user_id = e.ast.user_id ∧
      (toolLoop cfg step names e acc).1.status = e.status ∧
      (toolLoop cfg step names e acc).1.writes = e.writes ∧
      (toolLoop cfg step names e acc).1.queueRunning = e.queueRunning ∧
      (toolLoop cfg step names e acc).1.store = e.store := by
  intro names
  induction names with
  | nil => intro e acc; simp [toolLoop]
  | cons tname rest ih =>
    intro e acc
    rw [toolLoop]
    cases hg : e.registry.get_tool tname with
    | none => simpa using ih e acc
    | some tool =>
      simp only []
      split
      · rename_i v hv
        split_ifs with ht
        · simpa using ih _ _
        · simpa using ih _ _
      · simpa using ih _ _

@[simp] theorem updateStatus_agent_id (st : AgentState) (s : String) (c er : Option String)
    (t : Nat) : (updateStatus st s c er t).agent_id = st.agent_id :=
  (updateStatus_fields st s c er t).1

@[simp] theorem updateStatus_user_id (st : AgentState) (s : String) (c er : Option String)
    (t : Nat) : (updateStatus st s c er t).user_id = st.user_id :=
  (updateStatus_fields st s c er t).2.1

@[simp] theorem updateStatus_status (st : AgentState) (s : String) (c er : Option String)
    (t : Nat) : (updateStatus st s c er t).status = s :=
  (updateStatus_fields st s c er t).2.2.1

@[simp] theorem updateStatus_last_updated (st : AgentState) (s : String) (c er : Option String)
    (t : Nat) : (updateStatus st s c er t).last_updated = t :=
  (updateStatus_fields st s c er t).2.2.2.1

@[simp] theorem updateStatus_step_results (st : AgentState) (s : String) (c er : Option String)
    (t : Nat) : (updateStatus st s c er t).step_results = st.step_results :=
  (updateStatus_fields st s c er t).2.2.2.2.1

@[simp] theorem updateStatus_tools_state (st : AgentState) (s : String) (c er : Option String)
    (t : Nat) : (updateStatus st s c er t).tools_state = st.tools_state :=
  (updateStatus_fields st s c er t).2.2.2.2.2

@[simp] theorem persistState_ast (e : EngState) : (persistState e).ast = e.ast := rfl

@[simp] theorem persistState_status (e : EngState) : (persistState e).status = e.status := rfl

@[simp] theorem persistState_queueRunning (e : EngState) :
    (persistState e).queueRunning = e.queueRunning := rfl

@[simp] theorem persistState_clock (e : EngState) : (persistState e).clock = e.clock := rfl

@[simp] theorem persistState_writes (e : EngState) :
    (persistState e).writes = e.writes ++ [e.ast] := rfl

@[simp] theorem persistState_store (e : EngState) :
    (persistState e).store = update_state e.store e.ast := rfl

@[simp] theorem engUpdateStatus_ast (e : EngState) (s : String) (c er : Option String) :
    (engUpdateStatus e s c er).ast = updateStatus e.ast s c er e.clock := rfl

@[simp] theorem engUpdateStatus_status (e : EngState) (s : String) (c er : Option String) :
    (engUpdateStatus e s c er).status = e.status := rfl

@[simp] theorem engUpdateStatus_queueRunning (e : EngState) (s : String) (c er : Option String) :
    (engUpdateStatus e s c er).queueRunning = e.queueRunning := rfl

@[simp] theorem engUpdateStatus_clock (e : EngState) (s : String) (c er : Option String) :
    (engUpdateStatus e s c er).clock = e.clock + 1 := rfl

@[simp] theorem engUpdateStatus_writes (e : EngState) (s : String) (c er : Option String) :
    (engUpdateStatus e s c er).writes = e.writes ++ [updateStatus e.ast s c er e.clock] := rfl

@[simp] theorem sendProgress_ast (cfg : AgentCfg) (e : EngState) (step : String) (res : Dict) :
    (sendProgress cfg e step res).ast = e.ast :=
  (sendProgress_proj cfg e step res).1

@[simp] theorem sendProgress_status (cfg : AgentCfg) (e : EngState) (step : String)
    (res : Dict) : (sendProgress cfg e step res).status = e.status :=
  (sendProgress_proj cfg e step res).2.1

@[simp] theorem sendProgress_queueRunning (cfg : AgentCfg) (e : EngState) (step : String)
    (res : Dict) : (sendProgress cfg e step res).queueRunning = e.queueRunning :=
  (sendProgress_proj cfg e step res).2.2.1

@[simp] theorem sendProgress_writes (cfg : AgentCfg) (e : EngState) (step : String)
    (res : Dict) : (sendProgress cfg e step res).writes = e.writes :=
  (sendProgress_proj cfg e step res).2.2.2.1

theorem toolLoop_step_results (cfg : AgentCfg) (step : String) (names : List String)
    (e : EngState) (acc : Dict) :
    (toolLoop cfg step names e acc).1.ast.step_results = e.ast.step_results :=
  (toolLoop_proj cfg step names e acc).1

theorem toolLoop_status (cfg : AgentCfg) (step : String) (names : List String)
    (e : EngState) (acc : Dict) :
    (toolLoop cfg step names e acc).1.status = e.status :=
  (toolLoop_proj cfg step names e acc).2.2.2.2.1

theorem toolLoop_writes (cfg : AgentCfg) (step : String) (names : List String)
    (e : EngState) (acc : Dict) :
    (toolLoop cfg step names e acc).1.writes = e.writes :=
  (toolLoop_proj cfg step names e acc).2.2.2.2.2.1

theorem toolLoop_queueRunning (cfg : AgentCfg) (step : String) (names : List String)
    (e : EngState) (acc : Dict) :
    (toolLoop cfg step names e acc).1.queueRunning = e.queueRunning :=
  (toolLoop_proj cfg step names e acc).2.2.2.2.2.2.1

theorem execStep_step_results_eq (cfg : AgentCfg) (s : String) (e : EngState) :
    (execStep cfg s e).ast.step_results =
      Dict.set e.ast.step_results s
        (Dict.toVal (toolLoop cfg s cfg.tools
          (engUpdateStatus { e with currentStep := some s } "running" (some s) none) []).2) := by
  simp only [execStep, sendProgress_ast, persistState_ast]
  rw [toolLoop_step_results]
  simp

theorem execStep_step_results (cfg : AgentCfg) (s : String) (e : EngState) :
    ∃ v, (execStep cfg s e).ast.step_results = Dict.set e.ast.step_results s v :=
  ⟨_, execStep_step_results_eq cfg s e⟩

theorem execStep_status (cfg : AgentCfg) (s : String) (e : EngState) :
    (execStep cfg s e).status = e.status := by
  simp only [execStep, sendProgress_status, persistState_status]
  rw [toolLoop_status]
  simp

theorem execStep_queueRunning (cfg : AgentCfg) (s : String) (e : EngState) :
    (execStep cfg s e).queueRunning = e.queueRunning := by
  simp only [execStep, sendProgress_queueRunning, persistState_queueRunning]
  rw [toolLoop_queueRunning]
  simp

theorem execStep_writes (cfg : AgentCfg) (s : String) (e : EngState) :
    ∃ w1 w2, (execStep cfg s e).writes = e.writes ++ [w1, w2] := by
  simp only [execStep, sendProgress_writes, persistState_writes]
  rw [toolLoop_writes]
  simp only [engUpdateStatus_writes, List.append_assoc]
  exact ⟨_, _, rfl⟩

theorem getLast?_append_singleton {α : Type} (l : List α) (a : α) :
    (l ++ [a]).getLast? = some a := by
  simp

theorem stepLoop_writes_append (cfg : AgentCfg) (sig : Nat → Bool) :
    ∀ (l : List String) (i : Nat) (e : EngState),
      ∃ tl, (stepLoop cfg sig l i e).1.writes = e.writes ++ tl := by
  intro l
  induction l with
  | nil => intro i e; exact ⟨[], by simp [stepLoop]⟩
  | cons s rest ih =>
    intro i e
    rw [stepLoop]
    by_cases h : sig i = true
    · rw [if_pos h]
      exact ⟨[updateStatus e.ast "stopped" none none e.clock], by simp⟩
    · rw [if_neg h]
      obtain ⟨tl1, h1⟩ := ih (i + 1) (execStep cfg s e)
      obtain ⟨w1, w2, h2⟩ := execStep_writes cfg s e
      exact ⟨[w1, w2] ++ tl1, by rw [h1, h2]; simp⟩

theorem stepLoop_stopped (cfg : AgentCfg) (sig : Nat → Bool) :
    ∀ (l : List String) (k i : Nat) (e : EngState),
      k < l.length → sig (i + k) = true → (∀ j, j < k → sig (i + j) = false) →
      ((stepLoop cfg sig l i e).2 = true) ∧
      ((stepLoop cfg sig l i e).1.status = "stopped") ∧
      ((stepLoop cfg sig l i e).1.writes.getLast?.map AgentState.status = some "stopped") ∧
      (∀ s, ((Dict.get? (stepLoop cfg sig l i e).1.ast.step_results s).isSome = true) ↔
        ((Dict.get? e.ast.step_results s).isSome = true ∨ s ∈ l.take k)) := by
  intro l
  induction l with
  | nil =>
    intro k i e hk
    exact absurd hk (by simp)
  | cons s0 rest ih =>
    intro k i e hk hsig hbefore
    match k with
    | 0 =>
      have h0 : sig i = true := by simpa using hsig
      rw [stepLoop, if_pos h0]
      refine ⟨rfl, by simp, ?_, ?_⟩
      · simp [getLast?_append_singleton]
      · intro s
        simp
    | k' + 1 =>
      have h0 : sig i = false := hbefore 0 (Nat.succ_pos k')
      rw [stepLoop, if_neg (by simp [h0])]
      have hk' : k' < rest.length := by simpa using hk
      have hsig' : sig (i + 1 + k') = true := by
        rw [show i + 1 + k' = i + (k' + 1) by omega]
        exact hsig
      have hbefore' : ∀ j, j < k' → sig (i + 1 + j) = false := by
        intro j hj
        rw [show i + 1 + j = i + (j + 1) by omega]
        exact hbefore (j + 1) (by omega)
      obtain ⟨c1, c2, c3, c4⟩ := ih k' (i + 1) (execStep cfg s0 e) hk' hsig' hbefore'
      refine ⟨c1, c2, c3, ?_⟩
      intro s
      rw [c4 s]
      obtain ⟨v, hv⟩ := execStep_step_results cfg s0 e
      rw [hv, Dict.isSome_get?_set]
      simp only [List.take_succ_cons, List.mem_cons]
      tauto

/-! The claims. -/

/-- C2: For every parameter map, safe_execute always returns a structured
result and never raises: the result either is the error envelope or
carries the execution_metadata entry of a success, and when the underlying
execute raises, exceeds the 30-unit timeout, or returns a non-mapping, the
returned value is the error result with status "error", the error message,
and state holding last_error and the updated error_count. -/
theorem safe_execute_error_envelope (t : BaseTool) (params : Dict) (now : Nat) :
    ((Dict.get? (safe_execute t params now).2 "status" = some (.vStr "error") ∧
      (Dict.get? (safe_execute t params now).2 "error").isSome = true) ∨
      (Dict.get? (safe_execute t params now).2 "execution_metadata").isSome = true) ∧
    (validate_params params = true →
      ∀ msg, t.behavior params = .raises msg →
        (safe_execute t params now).2 = errorDict msg now (t.error_count + 1)) ∧
    (validate_params params = true → t.behavior params = .timesOut →
      (safe_execute t params now).2 =
        errorDict "Tool execution timed out" now (t.error_count + 1)) ∧
    (validate_params params = true → t.behavior params = .nonDict →
      (safe_execute t params now).2 =
        errorDict "Tool must return a dictionary" now (t.error_count + 1)) := by
  refine ⟨?_, fun hv msg hm => ?_, fun hv hm => ?_, fun hv hm => ?_⟩
  · by_cases hv : validate_params params = true
    · cases hb : t.behavior params with
      | ok r =>
        right
        simp [safe_execute, hv, hb, Dict.get?_set_self]
      | nonDict =>
        left
        simp [safe_execute, hv, hb, errorDict, Dict.get?]
      | raises msg =>
        left
        simp [safe_execute, hv, hb, errorDict, Dict.get?]
      | timesOut =>
        left
        simp [safe_execute, hv, hb, errorDict, Dict.get?]
    · left
      have hv2 : validate_params params = false := by
        cases h : validate_params params
        · rfl
        · exact absurd h hv
      simp [safe_execute, hv2, errorDict, Dict.get?]
  · simp [safe_execute, hv, hm]
  · simp [safe_execute, hv, hm]
  · simp [safe_execute, hv, hm]

/-- Witness for C2 at a concrete raising tool and valid parameters. -/
theorem safe_execute_error_envelope_witness :
    validate_params paramsOk = true ∧
    (safe_execute toolBoom paramsOk 0).2 = errorDict "boom" 0 1 :=
  ⟨rfl, (safe_execute_error_envelope toolBoom paramsOk 0).2.1 rfl "boom" rfl⟩

/-- C8 counterexample: a call whose parameter validation fails (params
missing the required keys) does not increment the execution counter at
all, refuting that every call to safe_execute increments it by exactly
one. -/
theorem safe_execute_validation_skips_exec_count :
    ¬ ((safe_execute toolOk [] 0).1.execution_count = toolOk.execution_count + 1) := by
  decide

/-- C8 amended: a call that passes parameter validation increments the
execution counter by exactly one (a validation failure leaves it
untouched), and a call that produces an error result (validation failure,
timeout, raised exception, or non-mapping result) increments the error
counter by exactly one. -/
theorem safe_execute_counter_discipline (t : BaseTool) (params : Dict) (now : Nat) :
    (safe_execute t params now).1.execution_count =
      t.execution_count + (if validate_params params = true then 1 else 0) ∧
    (safe_execute t params now).1.error_count =
      t.error_count +
        (if validate_params params = false ∨ (t.behavior params).isError = true
         then 1 else 0) := by
  by_cases hv : validate_params params = true
  · cases hb : t.behavior params <;>
      simp [safe_execute, hv, hb, ExecBehavior.isError]
  · have hv2 : validate_params params = false := by
      cases h : validate_params params
      · rfl
      · exact absurd h hv
    simp [safe_execute, hv2]

/-- C5 counterexample: calling start() on a channel that is already
running while the first start call still holds the internal lock (the
reference dispatch loop runs under that lock) suspends on the lock
acquisition instead of returning promptly as a no-op. -/
theorem start_on_running_locked_channel_blocks :
    qInLoop.running = true ∧ (MessageQueue.start qInLoop).1 ≠ StartOutcome.noop := by
  exact ⟨rfl, by decide⟩

/-- C5 amended: calling start() on a channel that is already running is a
no-op returning promptly with state and queued messages unchanged,
provided the internal lock is free (as after the dispatch loop exits
through cancellation); while the original start() still holds the lock, a
second call blocks on the lock instead, though it still enters no second
dispatch loop and changes nothing. -/
theorem start_idempotent_when_lock_free (q : MessageQueue)
    (hr : q.running = true) (hl : q.lockHeld = false) :
    MessageQueue.start q = (StartOutcome.noop, q) := by
  simp [MessageQueue.start, hr, hl]

/-- Witness for the amended C5 on a concrete running channel with a free
lock. -/
theorem start_idempotent_when_lock_free_witness :
    MessageQueue.start qRunningFree = (StartOutcome.noop, qRunningFree) :=
  start_idempotent_when_lock_free qRunningFree rfl rfl

/-- C9: register_tool raises ToolAlreadyRegisteredError exactly when the
name is already registered and leaves the registry unchanged in that
case; get_tool on an unregistered name returns none rather than raising;
and the engine's tool loop skips a missing tool and continues with the
remaining tools. -/
theorem registry_registration_and_lookup (reg : ToolRegistry) (tool : BaseTool)
    (now : Nat) (n : String) (cfg : AgentCfg) (step : String) (rest : List String)
    (e : EngState) (acc : Dict) :
    ((reg.register_tool tool now).1.isSome =
      reg.tools.any (fun p => p.1 == tool.name)) ∧
    (reg.tools.any (fun p => p.1 == tool.name) = true →
      reg.register_tool tool now = (some (.toolAlreadyRegistered tool.name), reg)) ∧
    (reg.tools.any (fun p => p.1 == n) = false → reg.get_tool n = none) ∧
    (e.registry.get_tool n = none →
      toolLoop cfg step (n :: rest) e acc = toolLoop cfg step rest e acc) := by
  refine ⟨?_, fun h => ?_, fun h => ?_, fun h => ?_⟩
  · cases h : reg.tools.any (fun p => p.1 == tool.name)
    · simp [ToolRegistry.register_tool, h]
    · simp [ToolRegistry.register_tool, h]
  · simp [ToolRegistry.register_tool, h]
  · have hf : reg.tools.find? (fun p => p.1 == n) = none := by
      rw [List.find?_eq_none]
      intro p hp
      simp only [List.any_eq_false] at h
      simpa using h p hp
    simp [ToolRegistry.get_tool, hf]
  · rw [toolLoop, h]

/-- Witness for C9 at a concrete registry, duplicate registration, missing
name, and engine state. -/
theorem registry_registration_and_lookup_witness :
    ((regOf toolOk).register_tool toolOk 0).1.isSome = true ∧
    (regOf toolOk).register_tool toolOk 0 =
      (some (.toolAlreadyRegistered "t"), regOf toolOk) ∧
    (regOf toolOk).get_tool "missing" = none ∧
    toolLoop cfgTwoStep "init" ["missing"] (engStart cfgTwoStep (regOf toolOk) true) [] =
      toolLoop cfgTwoStep "init" [] (engStart cfgTwoStep (regOf toolOk) true) [] := by
  obtain ⟨h1, h2, h3, h4⟩ :=
    registry_registration_and_lookup (regOf toolOk) toolOk 0 "missing" cfgTwoStep "init"
      [] (engStart cfgTwoStep (regOf toolOk) true) []
  exact ⟨by rw [h1]; rfl, by simpa using h2 rfl, h3 rfl, h4 rfl⟩

/-- C6 counterexample: two sequential completed update_state writes of the
same AgentState to the same key (exactly what _execute_step does at
base.py line 161 after _update_state_status already persisted the object
without refreshing last_updated in between) leave the stored last_updated
unchanged, not strictly greater. -/
theorem second_write_same_last_updated :
    (rowLU (update_state (update_state [] stSame) stSame) "a" "u" =
      rowLU (update_state [] stSame) "a" "u") ∧
    ¬ ((rowLU (update_state (update_state [] stSame) stSame) "a" "u").getD 0 >
       (rowLU (update_state [] stSame) "a" "u").getD 0) :=
  ⟨rfl, by decide⟩

/-- C6 amended: update_state persists the caller-supplied last_updated
verbatim, so the second of two sequential writes carries a strictly
greater last_updated exactly when the writer stamps it greater; in
particular two writes that each go through _update_state_status with
strictly increasing clock readings t1 < t2 store t1 and then t2. -/
theorem status_write_last_updated_increases (st : AgentState) (store : Store)
    (s1 s2 : String) (c1 c2 er1 er2 : Option String) (t1 t2 : Nat) (h : t1 < t2) :
    rowLU (update_state store (updateStatus st s1 c1 er1 t1))
      st.agent_id st.user_id = some t1 ∧
    rowLU (update_state (update_state store (updateStatus st s1 c1 er1 t1))
        (updateStatus (updateStatus st s1 c1 er1 t1) s2 c2 er2 t2))
      st.agent_id st.user_id = some t2 ∧
    t1 < t2 := by
  refine ⟨?_, ?_, h⟩
  · have h1 := rowLU_update_state store (updateStatus st s1 c1 er1 t1)
    simpa using h1
  · have h2 := rowLU_update_state (update_state store (updateStatus st s1 c1 er1 t1))
      (updateStatus (updateStatus st s1 c1 er1 t1) s2 c2 er2 t2)
    simpa using h2

/-- Witness for the amended C6 at concrete states and clock readings. -/
theorem status_write_last_updated_increases_witness :
    rowLU (update_state [] (updateStatus stSame "running" none none 0)) "a" "u" = some 0 ∧
    rowLU (update_state (update_state [] (updateStatus stSame "running" none none 0))
        (updateStatus (updateStatus stSame "running" none none 0) "completed" none none 1))
      "a" "u" = some 1 ∧
    (0 : Nat) < 1 :=
  status_write_last_updated_increases stSame [] "running" "completed" none none none none
    0 1 (by decide)

/-- C7 counterexample: an AgentState whose tools_state is JSON-serializable
but holds a dict with the int key 1 does not round-trip: json.dumps stores
the key as the string "1", so get_state after update_state returns a state
different from the one written. -/
theorem roundtrip_coerces_int_keys :
    get_state (update_state [] stIntKey) "a" "u" ≠ some stIntKey := by
  intro h
  have h2 := congrArg firstToolKeyIsInt h
  exact absurd h2 (by decide)

/-- C7 amended: for every AgentState whose three maps hold only JSON-native
values (string dict keys throughout, no tuples), update_state followed by
get_state on the same key returns a state field-for-field equal to the one
written, the three maps and last_updated included. -/
theorem store_roundtrip_jsonNative (st : AgentState) (store : Store)
    (h1 : ∀ e ∈ st.tools_state, JsonNative e.2)
    (h2 : ∀ e ∈ st.shared_data, JsonNative e.2)
    (h3 : ∀ e ∈ st.step_results, JsonNative e.2) :
    get_state (update_state store st) st.agent_id st.user_id = some st := by
  rw [get_state_update_state store st,
    loadDict_dumpDict _ h1, loadDict_dumpDict _ h2, loadDict_dumpDict _ h3]

/-- Witness for the amended C7 at a concrete JSON-native state. -/
theorem store_roundtrip_jsonNative_witness :
    get_state (update_state [] stNative) "a" "u" = some stNative :=
  store_roundtrip_jsonNative stNative []
    (by
      intro e he
      simp only [stNative, List.mem_singleton] at he
      subst he
      exact JsonNative.str_ "v")
    (by
      intro e he
      simp only [stNative, List.mem_singleton] at he
      subst he
      exact JsonNative.int_ 3)
    (by
      intro e he
      simp only [stNative, List.mem_singleton] at he
      subst he
      refine JsonNative.dict_ _ ?_ ?_
      · intro f hf
        simp only [List.mem_singleton] at hf
        subst hf
        exact ⟨"t", rfl⟩
      · intro f hf
        simp only [List.mem_singleton] at hf
        subst hf
        exact JsonNative.bool_ true)

theorem executePrelude_queueRunning (cfg : AgentCfg) (e0 : EngState) :
    (executePrelude cfg e0).queueRunning = e0.queueRunning := by
  simp [executePrelude]

theorem executePrelude_writes (cfg : AgentCfg) (e0 : EngState) :
    (executePrelude cfg e0).writes =
      [freshState cfg e0.clock,
       updateStatus (freshState cfg e0.clock) "running" none none (e0.clock + 1)] := by
  simp [executePrelude]

theorem executePrelude_ast (cfg : AgentCfg) (e0 : EngState) :
    (executePrelude cfg e0).ast =
      updateStatus (freshState cfg e0.clock) "running" none none (e0.clock + 1) := by
  simp [executePrelude]

theorem executeAgent_writes_prefix (cfg : AgentCfg) (sig : Nat → Bool) (e0 : EngState) :
    ∃ tl, (executeAgent cfg sig e0).eng.writes = (executePrelude cfg e0).writes ++ tl := by
  simp only [executeAgent]
  split
  · exact ⟨[], by simp⟩
  · obtain ⟨tl, htl⟩ := stepLoop_writes_append cfg sig cfg.allSteps 0 (executePrelude cfg e0)
    split
    · exact ⟨tl, htl⟩
    · refine ⟨tl ++ [updateStatus
        { (stepLoop cfg sig cfg.allSteps 0 (executePrelude cfg e0)).1 with
            status := "completed" }.ast "completed" none none
          (stepLoop cfg sig cfg.allSteps 0 (executePrelude cfg e0)).1.clock], ?_⟩
      simp only [ExecResult.eng, engUpdateStatus_writes]
      rw [show ({ (stepLoop cfg sig cfg.allSteps 0 (executePrelude cfg e0)).1 with
            status := "completed" } : EngState).writes =
          (stepLoop cfg sig cfg.allSteps 0 (executePrelude cfg e0)).1.writes from rfl]
      rw [htl, List.append_assoc]

/-- C10: every call to execute() begins by re-seeding the persisted row
for its key to a fresh state — status initialized, current_step null,
empty tools_state, shared_data and step_results — before persisting
status running as its second write; reading the key back right after the
first write yields exactly that fresh state, so step_results persisted by
any previous run under the same key are erased at that point. -/
theorem execute_reseeds_persisted_row (cfg : AgentCfg) (sig : Nat → Bool) (e0 : EngState) :
    ((executeAgent cfg sig e0).eng.writes.take 2 =
      [freshState cfg e0.clock,
       updateStatus (freshState cfg e0.clock) "running" none none (e0.clock + 1)]) ∧
    ((freshState cfg e0.clock).status = "initialized") ∧
    ((freshState cfg e0.clock).current_step = none) ∧
    ((freshState cfg e0.clock).tools_state = []) ∧
    ((freshState cfg e0.clock).shared_data = []) ∧
    ((freshState cfg e0.clock).step_results = []) ∧
    ((updateStatus (freshState cfg e0.clock) "running" none none (e0.clock + 1)).status =
      "running") ∧
    (get_state (update_state e0.store (freshState cfg e0.clock)) cfg.name cfg.user_id =
      some (freshState cfg e0.clock)) := by
  refine ⟨?_, rfl, rfl, rfl, rfl, rfl, by simp, ?_⟩
  · obtain ⟨tl, htl⟩ := executeAgent_writes_prefix cfg sig e0
    rw [htl, executePrelude_writes, List.take_append_of_le_length (by simp)]
    rfl
  · have h := get_state_update_state e0.store (freshState cfg e0.clock)
    simpa [freshState, show loadDict (dumpDict ([] : Dict)) = ([] : Dict) from rfl] using h

/-- C4: when a stop message has been delivered to the handler before the
k-th step-boundary check of a run whose channel is running, execute()
persists status stopped at that boundary as its final write, runs no
further steps, and step_results holds exactly the steps recorded before
the stop. -/
theorem stop_message_halts_at_next_boundary (cfg : AgentCfg) (sig : Nat → Bool)
    (e0 : EngState) (k : Nat) (hq : e0.queueRunning = true)
    (hk : k < cfg.allSteps.length) (hs : sig k = true)
    (hb : ∀ j, j < k → sig j = false) :
    ((executeAgent cfg sig e0).blocked = false) ∧
    ((executeAgent cfg sig e0).eng.status = "stopped") ∧
    ((executeAgent cfg sig e0).eng.writes.getLast?.map AgentState.status =
      some "stopped") ∧
    (∀ s, ((Dict.get? (executeAgent cfg sig e0).eng.ast.step_results s).isSome = true) ↔
      s ∈ cfg.allSteps.take k) := by
  obtain ⟨c1, c2, c3, c4⟩ := stepLoop_stopped cfg sig cfg.allSteps k 0
    (executePrelude cfg e0) hk (by simpa using hs) (fun j hj => by simpa using hb j hj)
  have hcond : ¬ ((!(executePrelude cfg e0).queueRunning) = true) := by
    rw [executePrelude_queueRunning, hq]
    simp
  simp only [executeAgent]
  rw [if_neg hcond, if_pos c1]
  refine ⟨rfl, c2, c3, fun s => ?_⟩
  rw [c4 s]
  have hz : (executePrelude cfg e0).ast.step_results = [] := by
    rw [executePrelude_ast]
    simp [freshState]
  rw [hz]
  simp [Dict.get?]

/-- Witness for C4: a stop delivered before boundary 1 of a three-step
run stops after the first step, with only that step recorded. -/
theorem stop_message_halts_at_next_boundary_witness :
    ((executeAgent cfgBoom (stopFrom 1) (engStart cfgBoom (regOf toolBoom) true)).blocked =
      false) ∧
    ((executeAgent cfgBoom (stopFrom 1)
        (engStart cfgBoom (regOf toolBoom) true)).eng.status = "stopped") ∧
    ((executeAgent cfgBoom (stopFrom 1)
        (engStart cfgBoom (regOf toolBoom) true)).eng.writes.getLast?.map
          AgentState.status = some "stopped") ∧
    (∀ s, ((Dict.get? (executeAgent cfgBoom (stopFrom 1)
        (engStart cfgBoom (regOf toolBoom) true)).eng.ast.step_results s).isSome = true) ↔
      s ∈ cfgBoom.allSteps.take 1) :=
  stop_message_halts_at_next_boundary cfgBoom (stopFrom 1)
    (engStart cfgBoom (regOf toolBoom) true) 1 rfl (by decide) (by decide) (by decide)

/-- C1 (evaluation at the failing input): with continue_on_error = false
and the single listed tool raising on every invocation, safe_execute
converts the exception into an error result and never raises (BaseTool.py
lines 64-78), so the abort branch of _execute_step (base.py lines
152-157) never runs: the run records the error result for every step
including those after the first failure, ends with persisted status
completed, and leaves shared_data without a last_error entry — while the
claim expects status failed, a non-empty last_error and no entries after
the erroring step. -/
theorem failing_tool_continue_false_completes :
    cfgBoom.continue_on_error = false ∧
    ((executeAgent cfgBoom (fun _ => false)
        (engStart cfgBoom (regOf toolBoom) true)).blocked = false) ∧
    ((executeAgent cfgBoom (fun _ => false)
        (engStart cfgBoom (regOf toolBoom) true)).eng.status = "completed") ∧
    ((executeAgent cfgBoom (fun _ => false)
        (engStart cfgBoom (regOf toolBoom) true)).eng.writes.getLast?.map
          AgentState.status = some "completed") ∧
    (Dict.get? (executeAgent cfgBoom (fun _ => false)
        (engStart cfgBoom (regOf toolBoom) true)).eng.ast.shared_data "last_error" =
      none) ∧
    ((Dict.get? (executeAgent cfgBoom (fun _ => false)
        (engStart cfgBoom (regOf toolBoom) true)).eng.ast.step_results "s0").isSome =
      true) ∧
    ((Dict.get? (executeAgent cfgBoom (fun _ => false)
        (engStart cfgBoom (regOf toolBoom) true)).eng.ast.step_results "s1").isSome =
      true) ∧
    ((Dict.get? (executeAgent cfgBoom (fun _ => false)
        (engStart cfgBoom (regOf toolBoom) true)).eng.ast.step_results "s2").isSome =
      true) ∧
    ((pyDictGet ((Dict.get? (executeAgent cfgBoom (fun _ => false)
        (engStart cfgBoom (regOf toolBoom) true)).eng.ast.step_results "s0").getD
          .vNone) "t").bind (fun tv => pyDictGet tv "status") =
      some (.vStr "error")) :=
  ⟨rfl, rfl, rfl, rfl, rfl, rfl, rfl, rfl, rfl⟩

/-- C3 (evaluation at the failing input): a spec with no intermediate
steps and one always-succeeding registered tool, run with its channel not
yet running (the constructor default), never returns from execute(): the
call blocks awaiting MessageQueue.start, whose dispatch loop is awaited
directly under the lock (messaging.py line 42) and never returns on a
queue that keeps waiting for messages.  Only the initialized and running
writes happen; no step runs and no completed status is ever persisted —
while the claim expects termination with status completed and both step
keys recorded. -/
theorem fresh_queue_blocks_execute :
    cfgTwoStep.steps = [] ∧
    ((executeAgent cfgTwoStep (fun _ => false)
        (engStart cfgTwoStep (regOf toolOk) false)).blocked = true) ∧
    ((executeAgent cfgTwoStep (fun _ => false)
        (engStart cfgTwoStep (regOf toolOk) false)).eng.writes.map AgentState.status =
      ["initialized", "running"]) ∧
    ((executeAgent cfgTwoStep (fun _ => false)
        (engStart cfgTwoStep (regOf toolOk) false)).eng.status = "running") ∧
    (Dict.get? (executeAgent cfgTwoStep (fun _ => false)
        (engStart cfgTwoStep (regOf toolOk) false)).eng.ast.step_results "init" =
      none) ∧
    (Dict.get? (executeAgent cfgTwoStep (fun _ => false)
        (engStart cfgTwoStep (regOf toolOk) false)).eng.ast.step_results "final" =
      none) :=
  ⟨rfl, rfl, rfl, rfl, rfl, rfl⟩
